import Mathlib

/-!
Verification development for the nixless-agent repository.

This file gives a shallow embedding, in Lean 4, of the parts of the
nixless-agent source that the specification talks about:

* `to_nix32` — the Nix base32 hash codec (`nix-core/src/lib.rs`);
* the Ed25519 public keychain and narinfo fingerprint verification
  (`nix-core/src/signing.rs`, `nixless-agent/src/fingerprint.rs`);
* `check_switching_status` over the activation-outcome tracker files
  (`nixless-agent/src/state/system_switch.rs`);
* the agent state object and its transitions
  (`nixless-agent/src/state/agent_state.rs`), together with the state
  keeper's request dispatch (`nixless-agent/src/actors/state_keeper.rs`);
* the downloader's closure-completeness check and per-NAR hash checks
  (`nixless-agent/src/actors/downloader.rs`).

Modelling conventions: Rust machine integers become `Nat` (byte values
carry an explicit `< 256` bound where it matters); fallible Rust code
(`Result`, panics, out-of-bounds indexing, arithmetic underflow) becomes
`Except String` or `Option` with the panic mapped to the error case;
filesystem and channel side effects become explicit values (`TrackerFiles`
for the tracker directory, `StateEffect` traces for the agent state's
writes and external actions).  External cryptographic primitives that are
not part of this repository (the `ed25519_dalek` verifier and the SHA-256
compression function) are abstracted: Ed25519 verification is a function
parameter, and SHA-256 digests are inputs to the functions that consume
them.  Everything else is translated directly from the source.
-/

/-! ## Hash codec: `to_nix32` (`src/nix-core/src/lib.rs`) -/

/-- The Nix base32 alphabet, exactly as in the source. -/
def nix32Alphabet : List Char := "0123456789abcdfghijklmnpqrsvwxyz".toList

/-- One 5-bit group of the encoding: for character position `n`, the source
computes `b = n * 5`, `i = b / 8`, `j = b % 8` and assembles
`c = (slice[i] >> j) | (slice[i+1] << (8 - j))`, the second summand
present only when `i < slice.len() - 1`; the emitted value is `c & 0x1f`.
Out-of-range reads use `getD`; the indices are proved in range below. -/
def nix32Group (s : List Nat) (n : Nat) : Nat :=
  let b := n * 5
  let i := b / 8
  let j := b % 8
  let c := ((s.getD i 0) >>> j) |||
    (if s.length - 1 ≤ i then 0 else (s.getD (i + 1) 0) <<< (8 - j))
  c &&& 31

/-- Embedding of `to_nix32`.  The source computes
`b32len = (slice.len() * 8 - 1) / 5 + 1` and then pushes one character for
each `n in (0..b32len).rev()`.  For the empty slice the subtraction
`slice.len() * 8 - 1` underflows `usize` and the function panics (debug) or
indexes out of bounds (release); the embedding returns `none` there. -/
def to_nix32 (s : List Nat) : Option String :=
  if s.length = 0 then none
  else
    let b32len := (s.length * 8 - 1) / 5 + 1
    some (String.mk (((List.range b32len).reverse).map
      (fun n => nix32Alphabet.getD (nix32Group s n) ' ')))

/-- The little-endian value of a byte string: byte `i` contributes
`s[i] * 2^(8*i)`.  Used to state what `to_nix32` encodes. -/
def bytesToNat (s : List Nat) : Nat :=
  s.foldr (fun b acc => b + 256 * acc) 0

/-! ## Signature keychain (`src/nix-core/src/signing.rs`)

The `base64` crate's `STANDARD` engine decodes canonical padded base64 and
rejects set trailing bits; `base64Decode` reimplements that.  Ed25519
verification (`ed25519_dalek::VerifyingKey::verify`) is external
cryptography and is abstracted as an `edVerify` function parameter; the
key type is likewise a type parameter `K`. -/

/-- Value of one character of the standard base64 alphabet. -/
def base64CharValue (c : Char) : Option Nat :=
  if 'A' ≤ c ∧ c ≤ 'Z' then some (c.toNat - 'A'.toNat)
  else if 'a' ≤ c ∧ c ≤ 'z' then some (c.toNat - 'a'.toNat + 26)
  else if '0' ≤ c ∧ c ≤ '9' then some (c.toNat - '0'.toNat + 52)
  else if c = '+' then some 62
  else if c = '/' then some 63
  else none

/-- Decode a list of base64 characters, four at a time.  Padding (`=`) is
accepted only at the end of the final quad, and trailing bits must be
zero, matching the `STANDARD` engine's canonical-decoding config. -/
def base64DecodeQuads : List Char → Option (List Nat)
  | [] => some []
  | c0 :: c1 :: c2 :: c3 :: rest =>
    match base64CharValue c0, base64CharValue c1 with
    | some v0, some v1 =>
      if c2 = '=' then
        if c3 = '=' ∧ rest = [] ∧ v1 % 16 = 0 then
          some [(v0 <<< 2) ||| (v1 >>> 4)]
        else none
      else
        match base64CharValue c2 with
        | some v2 =>
          if c3 = '=' then
            if rest = [] ∧ v2 % 4 = 0 then
              some [(v0 <<< 2) ||| (v1 >>> 4), ((v1 % 16) <<< 4) ||| (v2 >>> 2)]
            else none
          else
            match base64CharValue c3 with
            | some v3 =>
              (base64DecodeQuads rest).map (fun tail =>
                ((v0 <<< 2) ||| (v1 >>> 4)) ::
                (((v1 % 16) <<< 4) ||| (v2 >>> 2)) ::
                (((v2 % 4) <<< 6) ||| v3) :: tail)
            | none => none
        | none => none
    | _, _ => none
  | _ => none

/-- Decode a base64 string to bytes (`none` on any decode error). -/
def base64Decode (s : String) : Option (List Nat) :=
  base64DecodeQuads s.toList

deriving instance DecidableEq for Except

/-- The error enum of `nix-core/src/signing.rs`. -/
inductive PublicKeyError
  | PublicKeyTooShort
  | SignatureTooShort
  | UnexpectedFormat
  | UnableToDecode
  | UnableToReadKey
  | KeyAlreadyInKeychain
deriving DecidableEq, Repr

/-- Embedding of `signature_from_base64`: decode into a 64-byte buffer
(`DecodeSliceError` if the decoded data does not fit), then require at
least 64 bytes written. -/
def signature_from_base64 (data : String) : Except PublicKeyError (List Nat) :=
  match base64Decode data with
  | none => .error .UnableToDecode
  | some bs =>
    if 64 < bs.length then .error .UnableToDecode
    else if bs.length < 64 then .error .SignatureTooShort
    else .ok bs

/-- A public keychain over an abstract key type `K`: named keys, as in
`PublicKeychain { keys: HashMap<String, NixStylePublicKey> }`. -/
structure PublicKeychain (K : Type) where
  keys : List (String × K)
deriving DecidableEq

/-- Embedding of `PublicKeychain::verify`: look the key up by name; if
absent return `Ok(false)`; otherwise decode the signature (propagating its
error) and return the Ed25519 verification outcome as `Ok(bool)`.
`edVerify` abstracts `ed25519_dalek`'s `verify(data, sig).is_ok()`. -/
def PublicKeychain.verify {K : Type} (edVerify : K → String → List Nat → Bool)
    (kc : PublicKeychain K) (key_name : String) (data : String)
    (signature_base64 : String) : Except PublicKeyError Bool :=
  match kc.keys.lookup key_name with
  | some key => (signature_from_base64 signature_base64).map
      (fun sig => edVerify key data sig)
  | none => .ok false

/-! ## Narinfo and fingerprint (`src/nixless-agent/src/owned_nar_info.rs`,
`src/nixless-agent/src/fingerprint.rs`) -/

/-- A narinfo signature (`OwnedSig`): key name plus base64 signature. -/
structure OwnedSig where
  key_name : String
  sig : String
deriving DecidableEq

/-- The owned narinfo record (`OwnedNarInfo`). -/
structure OwnedNarInfo where
  store_path : String
  url : String
  compression : Option String
  nar_hash : String
  nar_size : Nat
  file_hash : Option String
  file_size : Option Nat
  deriver : Option String
  system : Option String
  references : List String
  sigs : List OwnedSig
deriving DecidableEq

/-- Rust's `str::rsplit_once('/')`: split at the last `/`, returning the
parts before and after it, or `none` when there is no `/`. -/
def rsplitOnceSlash (s : String) : Option (String × String) :=
  let cs := s.toList
  if '/' ∈ cs then
    let k := cs.length - 1 - cs.reverse.indexOf '/'
    some (⟨cs.take k⟩, ⟨cs.drop (k + 1)⟩)
  else
    none

/-- Embedding of `Fingerprint::fingerprint for OwnedNarInfo`: the store
directory is everything before the last `/` of `store_path` (error when
there is none); references are rendered `<store_dir>/<ref>` and joined
with commas (the `zip`/`flat_map`/`pop` construction is exactly
`intercalate ","`); the result is
`1;<store_path>;<nar_hash>;<nar_size>;<refs>`. -/
def OwnedNarInfo.fingerprint (ni : OwnedNarInfo) : Except String String :=
  match rsplitOnceSlash ni.store_path with
  | none => .error "this NAR info does not have a store path in the expected format"
  | some (store_dir, _) =>
    let refs := String.intercalate ","
      (ni.references.map (fun r => store_dir ++ "/" ++ r))
    .ok ("1;" ++ ni.store_path ++ ";" ++ ni.nar_hash ++ ";" ++
      toString ni.nar_size ++ ";" ++ refs)

/-- Embedding of `Fingerprint::verify_fingerprint for OwnedNarInfo`,
including its use of `.is_ok()` on the `Result<bool, _>` returned by
`PublicKeychain::verify`: a signature counts as soon as `verify` returns
`Ok(_)`, whatever the boolean inside is. -/
def OwnedNarInfo.verify_fingerprint {K : Type}
    (edVerify : K → String → List Nat → Bool) (ni : OwnedNarInfo)
    (kc : PublicKeychain K) : Except String Bool :=
  (ni.fingerprint).map (fun fp =>
    ni.sigs.any (fun sig =>
      (kc.verify edVerify sig.key_name fp sig.sig).toBool))

/-! ## Activation-outcome tracker files
(`src/nixless-agent/src/state/system_switch.rs`)

The tracker directory is modelled by which of the three files exist,
with the contents of `post_switch` carried when it exists. -/

/-- State of the tracker directory: presence of `pre_switch` and
`switch_success`, and contents of `post_switch` when present. -/
structure TrackerFiles where
  pre_switch : Bool
  switch_success : Bool
  post_switch : Option String
deriving DecidableEq

/-- `SwitchStatusCodes` from the source. -/
structure SwitchStatusCodes where
  service_result : String
  exit_code : String
  exit_status : String
deriving DecidableEq

/-- `SystemSwitchStatus` from the source. -/
inductive SystemSwitchStatus
  | Successful (reboot_required : Bool)
  | Failed (codes : SwitchStatusCodes)
  | InProgress
deriving DecidableEq

/-- Split a character list into pieces, each piece keeping its
terminating newline; a final piece without a newline is emitted as-is,
and the empty string yields no pieces (Rust's `split_inclusive('\n')`). -/
def splitInclusiveNewline : List Char → List (List Char)
  | [] => []
  | c :: rest =>
    if c = '\n' then ['\n'] :: splitInclusiveNewline rest
    else
      match splitInclusiveNewline rest with
      | [] => [[c]]
      | l :: ls => (c :: l) :: ls

/-- Turn one `split_inclusive` piece into a line: drop the terminating
`'\n'` and, only when it was present, one `'\r'` before it (Rust's
`LinesMap`). -/
def rustLineOfPiece (l : List Char) : List Char :=
  if l.getLast? = some '\n' then
    let l' := l.dropLast
    if l'.getLast? = some '\r' then l'.dropLast else l'
  else l

/-- Rust's `str::lines()`. -/
def rustLines (s : String) : List String :=
  (splitInclusiveNewline s.toList).map (fun l => String.mk (rustLineOfPiece l))

/-- `clean_up_system_switch_tracking_files`: unlink all three files. -/
def clean_up_system_switch_tracking_files (_ : TrackerFiles) : TrackerFiles :=
  { pre_switch := false, switch_success := false, post_switch := none }

/-- Embedding of `check_switching_status`.  `started`/`finished`/
`successful` are the existence checks of `pre_switch`/`post_switch`/
`switch_success`; the match mirrors the source's
`match (started, finished, successful)`.  The result carries the status
together with the tracker directory as left behind. -/
def check_switching_status (d : TrackerFiles) :
    Except String (SystemSwitchStatus × TrackerFiles) :=
  let started := d.pre_switch
  let finished := d.post_switch.isSome
  let successful := d.switch_success
  match started, finished, successful with
  | true, true, true =>
    .ok (.Successful false, clean_up_system_switch_tracking_files d)
  | true, true, false =>
    match rustLines (d.post_switch.getD "") with
    | [service_result, exit_code, exit_status] =>
      if service_result = "exit-code" ∧ exit_status = "100" then
        .ok (.Successful true, clean_up_system_switch_tracking_files d)
      else
        .ok (.Failed ⟨service_result, exit_code, exit_status⟩,
          clean_up_system_switch_tracking_files d)
    | _ =>
      .error "the tracking file for finished status did not follow the expected format"
  | _, _, _ => .ok (.InProgress, d)

/-! ## System configurations and the agent state
(`src/nixless-agent/src/system_configuration.rs`,
`src/nixless-agent/src/state/agent_state.rs`)

Package-id sets (`HashSet<String>`) become `Finset String`.  The
filesystem consequences of an operation (the truncate-write of the state
document, profile-link repair, task spawning) are recorded as an ordered
`StateEffect` trace; a Rust panic or `Err` becomes `Except.error` and the
in-memory state of a failed operation is discarded, as the actor that owns
it dies with the panic and the persisted document is what survives. -/

/-- `SystemConfiguration` from the source. -/
structure SystemConfiguration where
  version_number : Nat
  system_package_id : String
  package_ids : Finset String
deriving DecidableEq

/-- `SystemConfiguration::tombstone()`. -/
def SystemConfiguration.tombstone : SystemConfiguration :=
  { version_number := 0, system_package_id := "unknown", package_ids := ∅ }

/-- `SystemConfiguration::is_tombstone()`. -/
def SystemConfiguration.is_tombstone (c : SystemConfiguration) : Bool :=
  c.version_number = 0 ∧ c.system_package_id = "unknown" ∧ c.package_ids = ∅

/-- `AgentStateStatus` from the source. -/
inductive AgentStateStatus
  | New
  | Standby
  | FailedSwitch (configuration : SystemConfiguration)
  | DownloadingNewConfiguration (configuration : SystemConfiguration)
  | SwitchingToConfiguration (configuration : SystemConfiguration)
  | Temporary
deriving DecidableEq

/-- The agent state: the serialized fields of `AgentState` plus the
`max_system_history_count` configuration value (the directory fields do
not affect the modelled behaviour). -/
structure AgentState where
  max_system_history_count : Nat
  system_configurations : List SystemConfiguration
  current_status : AgentStateStatus
  packages_to_cleanup : Finset String
deriving DecidableEq

/-- One observable filesystem/channel action of a state operation, in
order of occurrence.  `WriteStateFile` is `AgentState::save`'s
truncate-write of the JSON document and carries the written snapshot;
the others are the external side-effects the spec talks about. -/
inductive StateEffect
  | WriteStateFile (configs : List SystemConfiguration)
      (status : AgentStateStatus) (cleanup : Finset String)
  | RepairProfileLinks
  | StartSwitchTask
  | ScheduleDeletion (packages : Finset String)
deriving DecidableEq

/-- The `save` event for a state (snapshot of what gets serialized). -/
def AgentState.save_event (s : AgentState) : StateEffect :=
  .WriteStateFile s.system_configurations s.current_status s.packages_to_cleanup

/-- `repair_profile_links` reads `system_configurations.last().unwrap()`
and so panics on an empty history; otherwise its filesystem work is the
single `RepairProfileLinks` effect. -/
def AgentState.repair_profile_links_events (s : AgentState) :
    Except String (List StateEffect) :=
  if s.system_configurations.isEmpty then
    .error "panicked: no configurations to link"
  else
    .ok [.RepairProfileLinks]

/-- `AgentState::set_standby`: set the status and save. -/
def AgentState.set_standby (s : AgentState) : AgentState × List StateEffect :=
  let s' := { s with current_status := AgentStateStatus.Standby }
  (s', [s'.save_event])

/-- `AgentState::mark_switching_new_system`: only from `Standby`; builds
the next configuration at `latest_configuration_version() + 1` (a panic
when the history is empty) and saves. -/
def AgentState.mark_switching_new_system (s : AgentState)
    (system_package_id : String) (package_ids : Finset String) :
    Except String (AgentState × List StateEffect) :=
  match s.current_status with
  | .Standby =>
    match s.system_configurations.getLast? with
    | none => .error "panicked: the configuration history is empty"
    | some last =>
      let cfg : SystemConfiguration :=
        { version_number := last.version_number + 1
          system_package_id := system_package_id
          package_ids := package_ids }
      let s' := { s with
        current_status := AgentStateStatus.SwitchingToConfiguration cfg }
      .ok (s', [s'.save_event])
  | _ => .error "current state is not standby, we cannot switch to a new system"

/-- `AgentState::mark_new_system_successful`: only while switching; the
pending configuration is appended to the history, the status becomes
`Standby`, the state is saved and then the profile links are repaired. -/
def AgentState.mark_new_system_successful (s : AgentState) :
    Except String (AgentState × List StateEffect) :=
  match s.current_status with
  | .SwitchingToConfiguration cfg =>
    let s' := { s with
      current_status := AgentStateStatus.Standby
      system_configurations := s.system_configurations ++ [cfg] }
    (s'.repair_profile_links_events).map (fun evs => (s', s'.save_event :: evs))
  | _ => .error "we are not switching to a new system at the moment"

/-- `AgentState::mark_new_system_failed`: only while switching; the
pending configuration moves into `FailedSwitch` and the state is saved. -/
def AgentState.mark_new_system_failed (s : AgentState) :
    Except String (AgentState × List StateEffect) :=
  match s.current_status with
  | .SwitchingToConfiguration cfg =>
    let s' := { s with
      current_status := AgentStateStatus.FailedSwitch cfg }
    .ok (s', [s'.save_event])
  | _ => .error "we are not switching to a new system at the moment"

/-- All package ids of a configuration, the system package id included:
the cleanup code inserts `config.system_package_id` and then extends with
`config.package_ids`. -/
def configPackages (c : SystemConfiguration) : Finset String :=
  insert c.system_package_id c.package_ids

/-- Union of `configPackages` over a list of configurations. -/
def configsPackages (l : List SystemConfiguration) : Finset String :=
  l.foldr (fun c acc => configPackages c ∪ acc) ∅

/-- Number of non-tombstone configurations in a history. -/
def nonTombstoneCount (l : List SystemConfiguration) : Nat :=
  (l.filter (fun c => !c.is_tombstone)).length

/-- Embedding of `AgentState::cleanup_configuration_history`: only from
`Standby`; reads `system_configurations[0]` (a panic on an empty history)
to decide whether a tombstone leads the history, counts the tracked valid
configurations, and when they exceed `max_system_history_count` drains
that many entries off the front, accumulates the packages that appear
only in removed configurations into `packages_to_cleanup`, and repairs
profile links.  Note: no `save` happens in this operation. -/
def AgentState.cleanup_configuration_history (s : AgentState) :
    Except String (AgentState × List StateEffect) :=
  match s.current_status with
  | .Standby =>
    match s.system_configurations with
    | [] => .error "panicked: index out of bounds on the configuration history"
    | c₀ :: _ =>
      let tracked := if c₀.is_tombstone then
        s.system_configurations.length - 1
      else
        s.system_configurations.length
      if tracked ≤ s.max_system_history_count then .ok (s, [])
      else
        let n := tracked - s.max_system_history_count
        let removed := s.system_configurations.take n
        let remaining := s.system_configurations.drop n
        let pkgs := configsPackages removed \ configsPackages remaining
        let s' := { s with
          system_configurations := remaining
          packages_to_cleanup := s.packages_to_cleanup ∪ pkgs }
        (s'.repair_profile_links_events).map (fun evs => (s', evs))
  | _ =>
    .error "state is not in standby, so cannot proceed with cleanup of configuration history"

/-- `AgentState::clear_packages_to_cleanup`: clear the set and save. -/
def AgentState.clear_packages_to_cleanup (s : AgentState) :
    AgentState × List StateEffect :=
  let s' := { s with packages_to_cleanup := (∅ : Finset String) }
  (s', [s'.save_event])

/-- `build_tombstone_value`: the tombstone, with `package_ids` replaced by
the ids found in the store (`collect_nix_store_packages`). -/
def build_tombstone_value (store_packages : Finset String) : SystemConfiguration :=
  { SystemConfiguration.tombstone with package_ids := store_packages }

/-- `AgentState::new`: determine the current configuration from
`/run/current-system`; when it cannot be identified (canonicalize error,
not a directory, or non-UTF-8), fall back to `build_tombstone_value`.
`identified` abstracts the successfully-identified case, carrying the
configuration the source assembles there. -/
def AgentState.new (max_system_history_count : Nat)
    (identified : Option SystemConfiguration)
    (store_packages : Finset String) : AgentState :=
  { max_system_history_count := max_system_history_count
    system_configurations :=
      [identified.getD (build_tombstone_value store_packages)]
    current_status := AgentStateStatus.New
    packages_to_cleanup := ∅ }

/-! ## State keeper dispatch (`src/nixless-agent/src/actors/state_keeper.rs`) -/

/-- The reply sent to a `SwitchToNewConfiguration` caller. -/
inductive SwitchReply
  | Accepted
  | RefusedError (msg : String)
deriving DecidableEq

/-- Embedding of the `SwitchToNewConfiguration` arm of the state keeper's
main loop: in `New`/`Temporary` the source hits `unreachable!()` (a
panic); in `FailedSwitch`/`Downloading`/`Switching` it replies with a
descriptive error and touches nothing; in `Standby` it marks the switch
(which saves) and spawns the switch task. -/
def handle_switch_to_new_configuration (s : AgentState)
    (system_package_id : String) (package_ids : Finset String) :
    Except String (SwitchReply × AgentState × List StateEffect) :=
  match s.current_status with
  | .New => .error "panicked: should have never been in a new state during the main loop"
  | .Temporary => .error "panicked: should have never been in a temporary state during the main loop"
  | .FailedSwitch _ =>
    .ok (.RefusedError "The system already failed a system switch and must be recovered before switching to a new configuration.", s, [])
  | .DownloadingNewConfiguration _ =>
    .ok (.RefusedError "The system is already downloading a new system configuration.", s, [])
  | .SwitchingToConfiguration _ =>
    .ok (.RefusedError "The system is already switching to a new system configuration.", s, [])
  | .Standby =>
    (s.mark_switching_new_system system_package_id package_ids).map
      (fun p => (.Accepted, p.1, p.2 ++ [.StartSwitchTask]))

/-- The state-mutating operations of the agent state, as dispatched by the
state keeper. -/
inductive AgentOp
  | SetStandby
  | MarkSwitchingNewSystem (system_package_id : String) (package_ids : Finset String)
  | MarkNewSystemSuccessful
  | MarkNewSystemFailed
  | CleanupConfigurationHistory
  | ClearPackagesToCleanup
deriving DecidableEq

/-- Run one operation against the agent state. -/
def runOp : AgentOp → AgentState → Except String (AgentState × List StateEffect)
  | .SetStandby, s => .ok s.set_standby
  | .MarkSwitchingNewSystem pid pkgs, s => s.mark_switching_new_system pid pkgs
  | .MarkNewSystemSuccessful, s => s.mark_new_system_successful
  | .MarkNewSystemFailed, s => s.mark_new_system_failed
  | .CleanupConfigurationHistory, s => s.cleanup_configuration_history
  | .ClearPackagesToCleanup, s => .ok s.clear_packages_to_cleanup

/-- Reachable agent states: those built at startup (fresh state file) and
those produced by successfully completed operations. -/
inductive ReachableAgentState : AgentState → Prop
  | init (max_system_history_count : Nat)
      (identified : Option SystemConfiguration)
      (store_packages : Finset String) :
      ReachableAgentState
        (AgentState.new max_system_history_count identified store_packages)
  | step (op : AgentOp) (s s' : AgentState) (tr : List StateEffect) :
      ReachableAgentState s → runOp op s = .ok (s', tr) →
      ReachableAgentState s'

/-- An effect is the state-document write. -/
def StateEffect.isWrite : StateEffect → Bool
  | .WriteStateFile _ _ _ => true
  | _ => false

/-- An effect is external to the state document (profile-link repair,
task spawning, deletion scheduling). -/
def StateEffect.isExternal : StateEffect → Bool
  | .RepairProfileLinks => true
  | .StartSwitchTask => true
  | .ScheduleDeletion _ => true
  | _ => false

/-- Every external effect in the trace happens strictly after some write
of the state document. -/
def externalsAfterWrite (tr : List StateEffect) : Prop :=
  ∀ j (hj : j < tr.length), (tr.get ⟨j, hj⟩).isExternal = true →
    ∃ i, ∃ (hi : i < tr.length), i < j ∧ (tr.get ⟨i, hi⟩).isWrite = true

/-! ## Downloader (`src/nixless-agent/src/actors/downloader.rs`)

SHA-256 is external cryptography: the two digests accumulated by the
streaming pipeline are inputs of the hash-check embedding. -/

/-- `NarDownloadResult` from the source (`nar_path` kept as a string). -/
structure NarDownloadResult where
  package_id : String
  nar_path : String
  reference_ids : List String
  is_already_unpacked : Bool
deriving DecidableEq

/-- The extension of `existing_store_package_ids` with every package id of
the aggregated download results. -/
def extend_existing (existing : Finset String)
    (results : List NarDownloadResult) : Finset String :=
  results.foldl (fun acc r => insert r.package_id acc) existing

/-- Embedding of the success arm of `downloader_task`'s
`DownloadPackages` handling (the post-condition of `download_packages`):
first extend `existing_store_package_ids` with every result's package id,
then fail when any result has a reference outside the extended set,
otherwise return the results.  The extended set is returned in either
case, since the source keeps it for later requests. -/
def downloader_check_references (existing : Finset String)
    (results : List NarDownloadResult) :
    Except String (List NarDownloadResult) × Finset String :=
  let extended := extend_existing existing results
  if results.any (fun r =>
      r.reference_ids.any (fun rp => decide (rp ∉ extended))) then
    (.error "the paths that were downloaded have missing references!", extended)
  else
    (.ok results, extended)

/-- Split a character list on `':'` boundaries. -/
def splitOnColonChars : List Char → List (List Char)
  | [] => [[]]
  | ch :: rest =>
    if ch = ':' then [] :: splitOnColonChars rest
    else
      match splitOnColonChars rest with
      | [] => [[ch]]
      | l :: ls => (ch :: l) :: ls

/-- Rust `split(":").collect::<Vec<_>>()`. -/
def splitColon (s : String) : List String :=
  (splitOnColonChars s.toList).map (fun l => String.mk l)

/-- The references of a fresh download result: trimmed, empties dropped
(the source's `filter_map` over `r.trim()`). -/
def trimmedReferences (refs : List String) : List String :=
  (refs.map (fun r => r.trim)).filter (fun t => t ≠ "")

/-- The local NAR path: the URL with a final `.xz` extension removed. -/
def localNarPath (url : String) : String :=
  let cs := url.toList
  if 3 ≤ cs.length ∧ cs.drop (cs.length - 3) = ['.', 'x', 'z'] then
    String.mk (cs.take (cs.length - 3))
  else url

/-- Embedding of the verification part of `download_one_nar` after the
body has been streamed: check the `sha256:` shape of `nar_hash` and (when
present) `file_hash`, then compare `to_nix32` of the decompressed digest
against the nar hash and, when the file-hash portion is non-empty,
`to_nix32` of the compressed digest against it.  `decompressed_digest`
and `compressed_digest` are the SHA-256 outputs of the two hashers. -/
def download_one_nar_hash_checks (package_id : String) (ni : OwnedNarInfo)
    (decompressed_digest compressed_digest : List Nat) :
    Except String NarDownloadResult :=
  match splitColon ni.nar_hash with
  | [pre, nar_hash] =>
    if pre ≠ "sha256" then
      .error "The NAR hash does not follow the format we expected."
    else
    let file_hash_check : Except String String :=
      match ni.file_hash with
      | some fh =>
        match splitColon fh with
        | [fpre, h] =>
          if fpre ≠ "sha256" then
            .error "The file hash does not follow the format we expected."
          else .ok h
        | _ => .error "The file hash does not follow the format we expected."
      | none => .ok ""
    match file_hash_check with
    | .error e => .error e
    | .ok file_hash =>
      match to_nix32 decompressed_digest with
      | none => .error "panicked in to_nix32"
      | some decompressed_hash =>
        if decompressed_hash ≠ nar_hash then
          .error "the hash of the decompressed NAR does not match"
        else
          if file_hash ≠ "" then
            match to_nix32 compressed_digest with
            | none => .error "panicked in to_nix32"
            | some compressed_hash =>
              if compressed_hash ≠ file_hash then
                .error "the hash of the compressed NAR does not match"
              else
                .ok { package_id := package_id
                      nar_path := localNarPath ni.url
                      reference_ids := trimmedReferences ni.references
                      is_already_unpacked := false }
          else
            .ok { package_id := package_id
                  nar_path := localNarPath ni.url
                  reference_ids := trimmedReferences ni.references
                  is_already_unpacked := false }
  | _ => .error "The NAR hash does not follow the format we expected."

/-! ## Concrete example values used by the claim theorems -/

/-- A narinfo whose only signature names a key that is not in the
keychain below. -/
def exC1NarInfo : OwnedNarInfo where
  store_path := "/nix/store/aaa-pkg"
  url := "nar/aaa.nar.xz"
  compression := some "xz"
  nar_hash := "sha256:abc"
  nar_size := 7
  file_hash := none
  file_size := none
  deriver := none
  system := none
  references := ["bbb-dep"]
  sigs := [⟨"other-key", "AAAA"⟩]

/-- A keychain holding a single key, named differently from the
signature above (the key material itself is irrelevant here, so the
abstract key type is `Unit`). -/
def exC1Keychain : PublicKeychain Unit := ⟨[("cache.nixos.org-1", ())]⟩

/-- Base32 of the all-zeroes SHA-256 digest: 52 `0` characters. -/
def zeroDigestNix32 : String :=
  "0000000000000000000000000000000000000000000000000000"

/-- A narinfo whose `file_hash` is present but has an empty hash portion
(`"sha256:"`), and whose `nar_hash` matches the all-zeroes digest. -/
def exC5NarInfo : OwnedNarInfo where
  store_path := "/nix/store/aaa-pkg"
  url := "nar/aaa.nar.xz"
  compression := some "xz"
  nar_hash := "sha256:" ++ zeroDigestNix32
  nar_size := 7
  file_hash := some "sha256:"
  file_size := none
  deriver := none
  system := none
  references := []
  sigs := []

/-- A history of two non-tombstone configurations. -/
def exHistoryPlain : List SystemConfiguration :=
  [⟨1, "sys1", {"p1"}⟩, ⟨2, "sys2", {"p2"}⟩]

/-- A standby agent state with `max_system_history_count = 1` and the
two-configuration history above. -/
def exStandbyState : AgentState :=
  ⟨1, exHistoryPlain, AgentStateStatus.Standby, ∅⟩

/-- A standby agent state with `max_system_history_count = 1` whose
history starts with a tombstone followed by two valid configurations. -/
def exTombstoneState : AgentState :=
  ⟨1, SystemConfiguration.tombstone :: exHistoryPlain, AgentStateStatus.Standby, ∅⟩

/-! ## Theorems -/

/-! ### Claim C1 — fingerprint verification (code bug)

The specification says `verify_fingerprint(keychain)` returns true iff
some signature on the narinfo cryptographically verifies against the
keychain key of its declared name, and false in particular when a
declared key name is absent from the keychain.  The source instead tests
`keychain.verify(..).is_ok()`, and `PublicKeychain::verify` returns
`Ok(false)` — which `is_ok()` turns into success — both when the key name
is absent and when the Ed25519 check fails. -/

/-- Claim C1, evaluated at the failing input: the narinfo's only
signature names a key that is absent from the keychain, and the Ed25519
verifier is instantiated to reject everything, so no signature
cryptographically verifies; yet `verify_fingerprint` returns `Ok(true)`.
The first conjunct records that the declared key name misses the
keychain. -/
theorem claim_C1 :
    (∀ sig ∈ exC1NarInfo.sigs, exC1Keychain.keys.lookup sig.key_name = none) ∧
    OwnedNarInfo.verify_fingerprint (fun _ _ _ => false) exC1NarInfo exC1Keychain
      = .ok true := by
  constructor
  · intro sig hsig
    simp only [exC1NarInfo, List.mem_singleton] at hsig
    subst hsig
    rfl
  · rfl

/-! ### Claims C2 and C10 — `check_switching_status` -/

/-- Claim C2 as stated is false: when `post_switch` and `switch_success`
are both present but `pre_switch` is absent, the source's match falls
through to `InProgress` (keeping all files) instead of returning
`Successful { reboot_required: false }` and unlinking. -/
theorem claim_C2_counterexample :
    ((⟨false, true, some "a\nb\nc"⟩ : TrackerFiles).switch_success = true) ∧
    ((⟨false, true, some "a\nb\nc"⟩ : TrackerFiles).post_switch.isSome = true) ∧
    check_switching_status ⟨false, true, some "a\nb\nc"⟩ =
      .ok (.InProgress, ⟨false, true, some "a\nb\nc"⟩) :=
  ⟨rfl, rfl, rfl⟩

/-- Claim C2 amended: the `Successful`/`Failed` outcomes additionally
require `pre_switch` to be present.  When all three files are present the
result is `Successful {reboot_required := false}` and all three are
unlinked; when `pre_switch` and `post_switch` are present but
`switch_success` is absent, the three lines of `post_switch` decide
reboot-required success (`service_result = "exit-code"` and
`exit_status = "100"`) versus failure carrying the codes, and all three
files are unlinked; in every other combination (`post_switch` absent or
`pre_switch` absent) the result is `InProgress` and no file is touched. -/
theorem claim_C2 (content sr ec es : String)
    (h : rustLines content = [sr, ec, es]) :
    (∀ c : String, check_switching_status ⟨true, true, some c⟩ =
      .ok (.Successful false, ⟨false, false, none⟩)) ∧
    (check_switching_status ⟨true, false, some content⟩ =
      if sr = "exit-code" ∧ es = "100" then
        .ok (.Successful true, ⟨false, false, none⟩)
      else
        .ok (.Failed ⟨sr, ec, es⟩, ⟨false, false, none⟩)) ∧
    (∀ d : TrackerFiles, d.pre_switch = false ∨ d.post_switch = none →
      check_switching_status d = .ok (.InProgress, d)) := by
  refine ⟨fun c => rfl, ?_, ?_⟩
  · simp only [check_switching_status, Option.isSome_some, Option.getD_some, h,
      clean_up_system_switch_tracking_files]
  · rintro ⟨pre, succ, post⟩ (hp | hp) <;> simp only at hp <;> subst hp
    · rfl
    · cases pre <;> cases succ <;> rfl


/-- Witness for the amended claim C2 at concrete tracker contents. -/
theorem claim_C2_witness :
    (∀ c : String, check_switching_status ⟨true, true, some c⟩ =
      .ok (.Successful false, ⟨false, false, none⟩)) ∧
    (check_switching_status ⟨true, false, some "exit-code\n0\n100"⟩ =
      if ("exit-code" : String) = "exit-code" ∧ ("100" : String) = "100" then
        .ok (.Successful true, ⟨false, false, none⟩)
      else
        .ok (.Failed ⟨"exit-code", "0", "100"⟩, ⟨false, false, none⟩)) ∧
    (∀ d : TrackerFiles, d.pre_switch = false ∨ d.post_switch = none →
      check_switching_status d = .ok (.InProgress, d)) :=
  claim_C2 "exit-code\n0\n100" "exit-code" "0" "100" (by rfl)

/-- Claim C10, confirmed: a run of `check_switching_status` that returns
`InProgress` leaves the tracker directory exactly as it found it — files
are only unlinked on runs that resolve to `Successful` or `Failed`. -/
theorem claim_C10 (d d' : TrackerFiles)
    (h : check_switching_status d = .ok (.InProgress, d')) : d' = d := by
  simp only [check_switching_status] at h
  split at h
  · simp at h
  · split at h
    · split at h <;> simp at h
    · simp at h
  · simp only [Except.ok.injEq, Prod.mk.injEq, true_and] at h
    exact h.symm

/-- Witness for claim C10 at the empty tracker directory. -/
theorem claim_C10_witness :
    (⟨false, false, none⟩ : TrackerFiles) = ⟨false, false, none⟩ :=
  claim_C10 ⟨false, false, none⟩ ⟨false, false, none⟩ rfl

/-! ### Claim C4 — closure completeness of `download_packages` -/

/-- The downloader's "missing references" test, rephrased: the `any` scan
fires exactly when closure completeness against the extended set fails. -/
theorem downloader_any_iff (existing : Finset String)
    (results : List NarDownloadResult) :
    (results.any (fun r => r.reference_ids.any
        (fun rp => decide (rp ∉ extend_existing existing results))) = true)
    ↔ ¬(∀ r ∈ results, ∀ rp ∈ r.reference_ids,
        rp ∈ extend_existing existing results) := by
  constructor
  · intro h hall
    rw [List.any_eq_true] at h
    obtain ⟨r, hr, h2⟩ := h
    rw [List.any_eq_true] at h2
    obtain ⟨rp, hrp, h3⟩ := h2
    exact (of_decide_eq_true h3) (hall r hr rp hrp)
  · intro hnall
    by_contra hfalse
    apply hnall
    intro r hr rp hrp
    by_contra hout
    apply hfalse
    rw [List.any_eq_true]
    refine ⟨r, hr, ?_⟩
    rw [List.any_eq_true]
    exact ⟨rp, hrp, decide_eq_true hout⟩

/-- Claim C4, confirmed: when every per-package fetch succeeded, the
downloader first extends `existing_store_package_ids` with every returned
package id (the returned set is the extended one, error or not), and then
replies with the results exactly when every `reference_ids` entry of
every result belongs to the extended set; otherwise it replies with the
"missing references" error. -/
theorem claim_C4 (existing : Finset String) (results : List NarDownloadResult) :
    (downloader_check_references existing results).2 =
      extend_existing existing results ∧
    ((downloader_check_references existing results).1 = .ok results ↔
      ∀ r ∈ results, ∀ rp ∈ r.reference_ids,
        rp ∈ extend_existing existing results) ∧
    (¬(∀ r ∈ results, ∀ rp ∈ r.reference_ids,
        rp ∈ extend_existing existing results) →
      (downloader_check_references existing results).1 =
        .error "the paths that were downloaded have missing references!") := by
  have hiff := downloader_any_iff existing results
  refine ⟨?_, ?_, ?_⟩
  · simp only [downloader_check_references]
    split <;> rfl
  · cases hany : results.any (fun r => r.reference_ids.any
        (fun rp => decide (rp ∉ extend_existing existing results))) with
    | true =>
      simp only [downloader_check_references, hany, if_true]
      constructor
      · intro hbad
        exact absurd hbad (by simp)
      · intro hall
        exact absurd hall (hiff.mp hany)
    | false =>
      have hall : ∀ r ∈ results, ∀ rp ∈ r.reference_ids,
          rp ∈ extend_existing existing results := by
        by_contra hn
        rw [hiff.mpr hn] at hany
        exact absurd hany (by simp)
      simp only [downloader_check_references, hany, Bool.false_eq_true, if_false]
      exact ⟨fun _ => hall, fun _ => by trivial⟩
  · intro hnall
    simp only [downloader_check_references, hiff.mpr hnall, if_true]

/-! ### Claim C6 — switch requests refused outside `Standby` -/

/-- Claim C6, confirmed: a `SwitchToNewConfiguration` request that the
state keeper's main loop answers (its loop never holds `New` or
`Temporary`, which the source marks `unreachable!`) is accepted exactly
when the status is `Standby`; in every other status the caller gets a
descriptive error and the agent state is returned untouched, with no
effects — in particular no write of the persisted state document. -/
theorem claim_C6 (s : AgentState) (pid : String) (pkgs : Finset String)
    (reply : SwitchReply) (s' : AgentState) (tr : List StateEffect)
    (hNew : s.current_status ≠ .New)
    (hTemp : s.current_status ≠ .Temporary)
    (h : handle_switch_to_new_configuration s pid pkgs = .ok (reply, s', tr)) :
    (reply = .Accepted ↔ s.current_status = .Standby) ∧
    (s.current_status ≠ .Standby →
      (∃ msg, reply = .RefusedError msg) ∧ s' = s ∧ tr = []) := by
  obtain ⟨max, configs, status, cleanup⟩ := s
  cases status with
  | New => exact absurd rfl hNew
  | Temporary => exact absurd rfl hTemp
  | Standby =>
    simp only [handle_switch_to_new_configuration] at h
    rcases hm : (AgentState.mk max configs AgentStateStatus.Standby
        cleanup).mark_switching_new_system pid pkgs with e | p
    · rw [hm] at h
      exact absurd h (by simp [Except.map])
    · rw [hm] at h
      simp only [Except.map, Except.ok.injEq, Prod.mk.injEq] at h
      exact ⟨⟨fun _ => rfl, fun _ => h.1.symm⟩, fun hne => absurd rfl hne⟩
  | FailedSwitch cfg =>
    simp only [handle_switch_to_new_configuration, Except.ok.injEq,
      Prod.mk.injEq] at h
    obtain ⟨hr, hs, ht⟩ := h
    refine ⟨⟨fun hacc => ?_, fun hsb => ?_⟩,
      fun _ => ⟨⟨_, hr.symm⟩, hs.symm, ht.symm⟩⟩
    · rw [← hr] at hacc
      simp at hacc
    · simp at hsb
  | DownloadingNewConfiguration cfg =>
    simp only [handle_switch_to_new_configuration, Except.ok.injEq,
      Prod.mk.injEq] at h
    obtain ⟨hr, hs, ht⟩ := h
    refine ⟨⟨fun hacc => ?_, fun hsb => ?_⟩,
      fun _ => ⟨⟨_, hr.symm⟩, hs.symm, ht.symm⟩⟩
    · rw [← hr] at hacc
      simp at hacc
    · simp at hsb
  | SwitchingToConfiguration cfg =>
    simp only [handle_switch_to_new_configuration, Except.ok.injEq,
      Prod.mk.injEq] at h
    obtain ⟨hr, hs, ht⟩ := h
    refine ⟨⟨fun hacc => ?_, fun hsb => ?_⟩,
      fun _ => ⟨⟨_, hr.symm⟩, hs.symm, ht.symm⟩⟩
    · rw [← hr] at hacc
      simp at hacc
    · simp at hsb

/-- Witness for claim C6: a request while a switch is already in flight
is refused and changes nothing. -/
theorem claim_C6_witness :
    ((SwitchReply.RefusedError "The system is already switching to a new system configuration.") = .Accepted ↔
      (AgentState.mk 1 exHistoryPlain
        (AgentStateStatus.SwitchingToConfiguration ⟨3, "sys3", ∅⟩) ∅).current_status =
        .Standby) ∧
    ((AgentState.mk 1 exHistoryPlain
        (AgentStateStatus.SwitchingToConfiguration ⟨3, "sys3", ∅⟩) ∅).current_status ≠
        .Standby →
      (∃ msg, (SwitchReply.RefusedError "The system is already switching to a new system configuration.") = .RefusedError msg) ∧
      (AgentState.mk 1 exHistoryPlain
        (AgentStateStatus.SwitchingToConfiguration ⟨3, "sys3", ∅⟩) ∅) =
      (AgentState.mk 1 exHistoryPlain
        (AgentStateStatus.SwitchingToConfiguration ⟨3, "sys3", ∅⟩) ∅) ∧
      ([] : List StateEffect) = []) :=
  claim_C6 _ "sys4" ∅ _ _ _ (by simp) (by simp) rfl

/-! ### Claim C7 — persistence before external side-effects -/

/-- The empty trace trivially orders writes before externals. -/
theorem externalsAfterWrite_nil : externalsAfterWrite [] := by
  intro j hj
  exact absurd hj (by simp)

/-- A trace headed by a state-document write orders writes before
externals, whatever follows. -/
theorem externalsAfterWrite_of_write_head (w : StateEffect)
    (hw : w.isWrite = true) (rest : List StateEffect) :
    externalsAfterWrite (w :: rest) := by
  intro j hj hx
  cases j with
  | zero =>
    cases w <;> simp [StateEffect.isWrite] at hw <;>
      simp [StateEffect.isExternal] at hx
  | succ k => exact ⟨0, by simp, by omega, hw⟩

/-- Claim C7 as stated is false: `cleanup_configuration_history` changes
`system_configurations` and `packages_to_cleanup`, issues the
profile-link repair, and never writes the state document — its whole
trace is the single external `RepairProfileLinks` effect. -/
theorem claim_C7_counterexample :
    AgentState.cleanup_configuration_history exStandbyState =
      .ok (⟨1, [⟨2, "sys2", {"p2"}⟩], .Standby, {"sys1", "p1"}⟩,
        [.RepairProfileLinks]) ∧
    StateEffect.RepairProfileLinks.isExternal = true ∧
    StateEffect.RepairProfileLinks.isWrite = false ∧
    ([⟨2, "sys2", {"p2"}⟩] : List SystemConfiguration) ≠
      exStandbyState.system_configurations ∧
    ({"sys1", "p1"} : Finset String) ≠ exStandbyState.packages_to_cleanup := by
  decide

/-- Claim C7 amended: every agent-state operation other than
`cleanup_configuration_history` truncate-writes the state document before
issuing any external side-effect; `cleanup_configuration_history` instead
issues its profile-link repair without writing the state document at
all. -/
theorem claim_C7 (op : AgentOp) (s s' : AgentState) (tr : List StateEffect)
    (h : runOp op s = .ok (s', tr)) :
    (op ≠ .CleanupConfigurationHistory → externalsAfterWrite tr) ∧
    (op = .CleanupConfigurationHistory → ∀ e ∈ tr, e.isWrite = false) := by
  cases op with
  | SetStandby =>
    refine ⟨fun _ => ?_, fun hop => by simp at hop⟩
    simp only [runOp, AgentState.set_standby, Except.ok.injEq,
      Prod.mk.injEq] at h
    rw [← h.2]
    exact externalsAfterWrite_of_write_head _ (by rfl) _
  | MarkSwitchingNewSystem pid pkgs =>
    refine ⟨fun _ => ?_, fun hop => by simp at hop⟩
    simp only [runOp, AgentState.mark_switching_new_system] at h
    split at h
    · split at h
      · exact absurd h (by simp)
      · simp only [Except.ok.injEq, Prod.mk.injEq] at h
        rw [← h.2]
        exact externalsAfterWrite_of_write_head _ (by rfl) _
    · exact absurd h (by simp)
  | MarkNewSystemSuccessful =>
    refine ⟨fun _ => ?_, fun hop => by simp at hop⟩
    simp only [runOp, AgentState.mark_new_system_successful] at h
    split at h
    · simp only [AgentState.repair_profile_links_events] at h
      split at h
      · exact absurd h (by simp [Except.map])
      · simp only [Except.map, Except.ok.injEq, Prod.mk.injEq] at h
        rw [← h.2]
        exact externalsAfterWrite_of_write_head _ (by rfl) _
    · exact absurd h (by simp)
  | MarkNewSystemFailed =>
    refine ⟨fun _ => ?_, fun hop => by simp at hop⟩
    simp only [runOp, AgentState.mark_new_system_failed] at h
    split at h
    · simp only [Except.ok.injEq, Prod.mk.injEq] at h
      rw [← h.2]
      exact externalsAfterWrite_of_write_head _ (by rfl) _
    · exact absurd h (by simp)
  | CleanupConfigurationHistory =>
    refine ⟨fun hop => absurd rfl hop, fun _ => ?_⟩
    intro e he
    simp only [runOp, AgentState.cleanup_configuration_history,
      AgentState.repair_profile_links_events] at h
    split at h
    · split at h
      · exact absurd h (by simp)
      · split at h <;> split at h
        all_goals first
        | (simp only [Except.ok.injEq, Prod.mk.injEq] at h
           rw [← h.2] at he
           simp at he)
        | (split at h
           · simp [Except.map] at h
           · simp only [Except.map, Except.ok.injEq, Prod.mk.injEq] at h
             rw [← h.2] at he
             simp only [List.mem_singleton] at he
             subst he
             rfl)
    · exact absurd h (by simp)
  | ClearPackagesToCleanup =>
    refine ⟨fun _ => ?_, fun hop => by simp at hop⟩
    simp only [runOp, AgentState.clear_packages_to_cleanup, Except.ok.injEq,
      Prod.mk.injEq] at h
    rw [← h.2]
    exact externalsAfterWrite_of_write_head _ (by rfl) _

/-- Witness for the amended claim C7 at a concrete operation. -/
theorem claim_C7_witness :
    ((AgentOp.SetStandby ≠ .CleanupConfigurationHistory →
      externalsAfterWrite [(exStandbyState.set_standby.1).save_event]) ∧
    (AgentOp.SetStandby = .CleanupConfigurationHistory →
      ∀ e ∈ [(exStandbyState.set_standby.1).save_event], e.isWrite = false)) :=
  claim_C7 .SetStandby exStandbyState _ _ rfl

/-! ### Claim C8 — the history is never empty; the startup tombstone -/

/-- Every successfully completed operation preserves non-emptiness of the
configuration history. -/
theorem runOp_nonempty (op : AgentOp) (s s' : AgentState)
    (tr : List StateEffect) (h : runOp op s = .ok (s', tr))
    (hs : s.system_configurations ≠ []) : s'.system_configurations ≠ [] := by
  cases op with
  | SetStandby =>
    simp only [runOp, AgentState.set_standby, Except.ok.injEq,
      Prod.mk.injEq] at h
    rw [← h.1]
    exact hs
  | MarkSwitchingNewSystem pid pkgs =>
    simp only [runOp, AgentState.mark_switching_new_system] at h
    split at h
    · split at h
      · exact absurd h (by simp)
      · simp only [Except.ok.injEq, Prod.mk.injEq] at h
        rw [← h.1]
        exact hs
    · exact absurd h (by simp)
  | MarkNewSystemSuccessful =>
    simp only [runOp, AgentState.mark_new_system_successful] at h
    split at h
    · simp only [AgentState.repair_profile_links_events] at h
      split at h
      · exact absurd h (by simp [Except.map])
      · simp only [Except.map, Except.ok.injEq, Prod.mk.injEq] at h
        rw [← h.1]
        simp
    · exact absurd h (by simp)
  | MarkNewSystemFailed =>
    simp only [runOp, AgentState.mark_new_system_failed] at h
    split at h
    · simp only [Except.ok.injEq, Prod.mk.injEq] at h
      rw [← h.1]
      exact hs
    · exact absurd h (by simp)
  | CleanupConfigurationHistory =>
    simp only [runOp, AgentState.cleanup_configuration_history,
      AgentState.repair_profile_links_events] at h
    split at h
    · split at h
      · exact absurd h (by simp)
      · split at h <;> split at h
        all_goals first
        | (simp only [Except.ok.injEq, Prod.mk.injEq] at h
           rw [← h.1]
           exact hs)
        | (split at h
           · simp [Except.map] at h
           next hne =>
             simp only [Except.map, Except.ok.injEq, Prod.mk.injEq] at h
             rw [← h.1]
             simp only [List.isEmpty_eq_true] at hne
             exact hne)
    · exact absurd h (by simp)
  | ClearPackagesToCleanup =>
    simp only [runOp, AgentState.clear_packages_to_cleanup, Except.ok.injEq,
      Prod.mk.injEq] at h
    rw [← h.1]
    exact hs

/-- Claim C8 as stated is false in its tombstone part: when the running
system cannot be identified at startup, the configuration at position 0
has version 0 and id "unknown" but its `package_ids` is the set of
packages found in the store — here non-empty. -/
theorem claim_C8_counterexample :
    ∃ c, (AgentState.new 3 none {"aaa-pkg"}).system_configurations.head? =
        some c ∧
      c.version_number = 0 ∧ c.system_package_id = "unknown" ∧
      c.package_ids ≠ (∅ : Finset String) :=
  ⟨build_tombstone_value {"aaa-pkg"}, rfl, rfl, rfl, by decide⟩

/-- Claim C8 amended: in every reachable agent state the configuration
history is non-empty; and when a new state is built at startup with the
running system unidentified, position 0 holds a configuration with
version 0, id "unknown", and `package_ids` equal to the set of package
ids found in the store (empty only when the store is empty). -/
theorem claim_C8 (s : AgentState) (h : ReachableAgentState s) :
    s.system_configurations ≠ [] ∧
    (∀ (max : Nat) (store_packages : Finset String),
      (AgentState.new max none store_packages).system_configurations =
        [⟨0, "unknown", store_packages⟩]) := by
  refine ⟨?_, fun max store_packages => rfl⟩
  induction h with
  | init max identified store => simp [AgentState.new]
  | step op s s' tr _ hrun ih => exact runOp_nonempty op s s' tr hrun ih

/-- Witness for the amended claim C8 at a freshly built state. -/
theorem claim_C8_witness :
    (AgentState.new 3 none ∅).system_configurations ≠ [] ∧
    (∀ (max : Nat) (store_packages : Finset String),
      (AgentState.new max none store_packages).system_configurations =
        [⟨0, "unknown", store_packages⟩]) :=
  claim_C8 _ (ReachableAgentState.init 3 none ∅)

/-! ### Claim C3 — history pruning and the cleanup package set -/

/-- There are at most as many non-tombstone configurations as
configurations. -/
theorem nonTombstoneCount_le (l : List SystemConfiguration) :
    nonTombstoneCount l ≤ l.length :=
  List.length_filter_le _ _

/-- A leading tombstone does not count. -/
theorem nonTombstoneCount_cons_tombstone (c : SystemConfiguration)
    (l : List SystemConfiguration) (hc : c.is_tombstone = true) :
    nonTombstoneCount (c :: l) = nonTombstoneCount l := by
  simp [nonTombstoneCount, List.filter_cons, hc]

/-- Claim C3 as stated is false: with `max_system_history_count = 1` and
a history of a tombstone followed by two valid configurations, the drain
removes the tombstone (it sits at the front) instead of the oldest valid
configuration, so cleanup returns successfully with two non-tombstone
configurations still retained — more than `max_system_history_count`.
The packages entering `packages_to_cleanup` are exactly those of the
discarded tombstone ("unknown"). -/
theorem claim_C3_counterexample :
    AgentState.cleanup_configuration_history exTombstoneState =
      .ok (⟨1, exHistoryPlain, .Standby, {"unknown"}⟩, [.RepairProfileLinks]) ∧
    exTombstoneState.max_system_history_count = 1 ∧
    nonTombstoneCount exHistoryPlain = 2 := by
  decide

/-- Claim C3 amended: a successful `cleanup_configuration_history` from
`Standby` discards a prefix of the history and extends
`packages_to_cleanup` with exactly the identifiers (system package ids
included) occurring in some discarded configuration and in no retained
one; afterwards at most `max_system_history_count + 1` non-tombstone
configurations remain, and at most `max_system_history_count` when the
history did not start with a tombstone (the drain counts the leading
tombstone against the prune quota). -/
theorem claim_C3 (s s' : AgentState) (tr : List StateEffect)
    (h : s.cleanup_configuration_history = .ok (s', tr)) :
    (∃ removed, s.system_configurations = removed ++ s'.system_configurations ∧
      s'.packages_to_cleanup = s.packages_to_cleanup ∪
        (configsPackages removed \ configsPackages s'.system_configurations)) ∧
    nonTombstoneCount s'.system_configurations ≤ s.max_system_history_count + 1 ∧
    (∀ c₀ l, s.system_configurations = c₀ :: l → c₀.is_tombstone = false →
      nonTombstoneCount s'.system_configurations ≤ s.max_system_history_count) := by
  simp only [AgentState.cleanup_configuration_history,
    AgentState.repair_profile_links_events] at h
  split at h
  · split at h
    · exact absurd h (by simp)
    next c₀ rest heql =>
      split at h
      next htomb =>
        split at h
        next hle =>
          simp only [Except.ok.injEq, Prod.mk.injEq] at h
          obtain ⟨hs', _⟩ := h
          subst hs'
          have hcount : nonTombstoneCount s.system_configurations ≤
              s.max_system_history_count := by
            rw [heql, nonTombstoneCount_cons_tombstone c₀ rest htomb]
            have h1 := nonTombstoneCount_le rest
            have h2 : s.system_configurations.length = rest.length + 1 := by
              rw [heql]; rfl
            omega
          refine ⟨⟨[], by simp, by simp [configsPackages]⟩, by omega, ?_⟩
          intro c₀' l' heq' hnt
          rw [heql] at heq'
          obtain ⟨hc, _⟩ := List.cons.injEq .. ▸ heq'
          rw [← hc] at hnt
          rw [htomb] at hnt
          exact absurd hnt (by simp)
        next hgt =>
          split at h
          · simp [Except.map] at h
          next hne =>
            simp only [Except.map, Except.ok.injEq, Prod.mk.injEq] at h
            obtain ⟨hs', _⟩ := h
            subst hs'
            have hlen : s.system_configurations.length = rest.length + 1 := by
              rw [heql]; rfl
            have hdroplen : (s.system_configurations.drop
                (s.system_configurations.length - 1 -
                  s.max_system_history_count)).length =
                s.system_configurations.length -
                  (s.system_configurations.length - 1 -
                    s.max_system_history_count) :=
              List.length_drop ..
            have hcount := nonTombstoneCount_le (s.system_configurations.drop
              (s.system_configurations.length - 1 - s.max_system_history_count))
            refine ⟨⟨s.system_configurations.take
              (s.system_configurations.length - 1 - s.max_system_history_count),
              ?_, ?_⟩, ?_, ?_⟩
            · exact (List.take_append_drop ..).symm
            · rfl
            · simp only
              omega
            · intro c₀' l' heq' hnt
              rw [heql] at heq'
              obtain ⟨hc, _⟩ := List.cons.injEq .. ▸ heq'
              rw [← hc] at hnt
              rw [htomb] at hnt
              exact absurd hnt (by simp)
      next htomb =>
        split at h
        next hle =>
          simp only [Except.ok.injEq, Prod.mk.injEq] at h
          obtain ⟨hs', _⟩ := h
          subst hs'
          have hcount : nonTombstoneCount s.system_configurations ≤
              s.max_system_history_count := by
            have h1 := nonTombstoneCount_le s.system_configurations
            omega
          exact ⟨⟨[], by simp, by simp [configsPackages]⟩, by omega,
            fun _ _ _ _ => hcount⟩
        next hgt =>
          split at h
          · simp [Except.map] at h
          next hne =>
            simp only [Except.map, Except.ok.injEq, Prod.mk.injEq] at h
            obtain ⟨hs', _⟩ := h
            subst hs'
            have hdroplen : (s.system_configurations.drop
                (s.system_configurations.length -
                  s.max_system_history_count)).length =
                s.system_configurations.length -
                  (s.system_configurations.length -
                    s.max_system_history_count) :=
              List.length_drop ..
            have hcount := nonTombstoneCount_le (s.system_configurations.drop
              (s.system_configurations.length - s.max_system_history_count))
            refine ⟨⟨s.system_configurations.take
              (s.system_configurations.length - s.max_system_history_count),
              (List.take_append_drop ..).symm, rfl⟩, by simp only; omega,
              fun _ _ _ _ => by simp only; omega⟩
  · exact absurd h (by simp)

/-- Witness for the amended claim C3: pruning a plain two-entry history
with `max_system_history_count = 1` keeps one configuration and queues
the dropped one's packages. -/
theorem claim_C3_witness :
    ((∃ removed, exStandbyState.system_configurations = removed ++
        (⟨1, [⟨2, "sys2", {"p2"}⟩], .Standby, {"sys1", "p1"}⟩ :
          AgentState).system_configurations ∧
      (⟨1, [⟨2, "sys2", {"p2"}⟩], .Standby, {"sys1", "p1"}⟩ :
          AgentState).packages_to_cleanup =
        exStandbyState.packages_to_cleanup ∪
          (configsPackages removed \ configsPackages
            (⟨1, [⟨2, "sys2", {"p2"}⟩], .Standby, {"sys1", "p1"}⟩ :
              AgentState).system_configurations)) ∧
    nonTombstoneCount (⟨1, [⟨2, "sys2", {"p2"}⟩], .Standby, {"sys1", "p1"}⟩ :
        AgentState).system_configurations ≤
      exStandbyState.max_system_history_count + 1 ∧
    (∀ c₀ l, exStandbyState.system_configurations = c₀ :: l →
      c₀.is_tombstone = false →
      nonTombstoneCount (⟨1, [⟨2, "sys2", {"p2"}⟩], .Standby,
          {"sys1", "p1"}⟩ : AgentState).system_configurations ≤
        exStandbyState.max_system_history_count)) :=
  claim_C3 exStandbyState
    ⟨1, [⟨2, "sys2", {"p2"}⟩], .Standby, {"sys1", "p1"}⟩
    [.RepairProfileLinks] (by decide)

/-! ### Claim C5 — per-NAR hash checks -/

/-- For a non-empty slice, `to_nix32` returns a string. -/
theorem to_nix32_eq_some (s : List Nat) (h : s ≠ []) :
    to_nix32 s = some (String.mk (((List.range
        ((s.length * 8 - 1) / 5 + 1)).reverse).map
      (fun n => nix32Alphabet.getD (nix32Group s n) ' '))) := by
  have hlen : ¬ s.length = 0 := by simp [List.length_eq_zero, h]
  simp [to_nix32, hlen]

/-- Claim C5 as stated is false: a narinfo whose `file_hash` is present
as `"sha256:"` (empty hash portion) skips the compressed-digest check
entirely — the source only compares when the extracted portion is
non-empty — so the fetch succeeds although the compressed digest differs
from the (empty) hash portion. -/
theorem claim_C5_counterexample :
    exC5NarInfo.file_hash = some "sha256:" ∧
    splitColon "sha256:" = ["sha256", ""] ∧
    to_nix32 (List.replicate 32 0) = some zeroDigestNix32 ∧
    zeroDigestNix32 ≠ "" ∧
    download_one_nar_hash_checks "aaa-pkg" exC5NarInfo
      (List.replicate 32 0) (List.replicate 32 0) =
      .ok { package_id := "aaa-pkg", nar_path := "nar/aaa.nar",
            reference_ids := [], is_already_unpacked := false } := by
  refine ⟨rfl, by decide, by decide, by decide, by decide⟩

/-- Claim C5 amended: given well-formed `sha256:` hash fields, the
post-download verification of `download_one_nar` succeeds exactly when
the Nix-base32 SHA-256 digest of the decompressed bytes equals the hash
portion of `nar_hash` and, whenever `file_hash` is present *with a
non-empty hash portion*, the digest of the compressed bytes equals that
portion; any mismatch fails the fetch. -/
theorem claim_C5 (package_id : String) (ni : OwnedNarInfo)
    (d c : List Nat) (nh fh : String)
    (hd : d ≠ []) (hc : c ≠ [])
    (hn : splitColon ni.nar_hash = ["sha256", nh])
    (hf : (ni.file_hash = none ∧ fh = "") ∨
          (∃ fhs, ni.file_hash = some fhs ∧ splitColon fhs = ["sha256", fh])) :
    (∃ res, download_one_nar_hash_checks package_id ni d c = .ok res) ↔
      (to_nix32 d = some nh ∧ (fh ≠ "" → to_nix32 c = some fh)) := by
  obtain ⟨ds, hds⟩ : ∃ str, to_nix32 d = some str := ⟨_, to_nix32_eq_some d hd⟩
  obtain ⟨cs, hcs⟩ : ∃ str, to_nix32 c = some str := ⟨_, to_nix32_eq_some c hc⟩
  unfold download_one_nar_hash_checks
  rw [hn, hds, hcs]
  have hfc : (match ni.file_hash with
      | some fh =>
        match splitColon fh with
        | [fpre, h] =>
          if fpre ≠ "sha256" then
            Except.error "The file hash does not follow the format we expected."
          else Except.ok h
        | _ => Except.error "The file hash does not follow the format we expected."
      | none => Except.ok "") = Except.ok fh := by
    rcases hf with ⟨hnone, hempty⟩ | ⟨fhs, hsome, hsplit⟩
    · rw [hnone, hempty]
    · rw [hsome]
      simp only [hsplit]
      simp
  simp only [hfc]
  by_cases h1 : ds = nh
  · subst h1
    rw [if_neg (by simp)]
    by_cases h2 : fh = ""
    · subst h2
      rw [if_neg (by simp)]
      simp
    · rw [if_pos h2]
      by_cases h3 : cs = fh
      · subst h3
        rw [if_neg (by simp)]
        simp
      · rw [if_pos h3]
        constructor
        · rintro ⟨res, hres⟩
          exact absurd hres (by simp)
        · rintro ⟨-, hfc2⟩
          exact absurd (by simpa using hfc2 h2) h3
  · rw [if_pos h1]
    constructor
    · rintro ⟨res, hres⟩
      exact absurd hres (by simp)
    · rintro ⟨hsome, -⟩
      exact absurd (by simpa using hsome) h1

/-- Witness for the amended claim C5 at a one-byte digest. -/
theorem claim_C5_witness :
    (∃ res, download_one_nar_hash_checks "p"
      { store_path := "/nix/store/p", url := "nar/p.nar", compression := none,
        nar_hash := "sha256:0z", nar_size := 1, file_hash := none,
        file_size := none, deriver := none, system := none,
        references := [], sigs := [] } [31] [0] = .ok res) ↔
      (to_nix32 [31] = some "0z" ∧ (("" : String) ≠ "" → to_nix32 [0] = some "")) :=
  claim_C5 "p" _ [31] [0] "0z" "" (by decide) (by decide) (by decide)
    (Or.inl ⟨rfl, rfl⟩)

/-! ### Claim C9 — the base32 codec -/

/-- Unfolding lemma for `bytesToNat`. -/
theorem bytesToNat_cons (b : Nat) (t : List Nat) :
    bytesToNat (b :: t) = b + 256 * bytesToNat t := rfl

/-- Bit `m` of the little-endian byte value is bit `m % 8` of byte
`m / 8`. -/
theorem bytesToNat_testBit (s : List Nat) (hb : ∀ x ∈ s, x < 256) (m : Nat) :
    (bytesToNat s).testBit m = (s.getD (m / 8) 0).testBit (m % 8) := by
  induction s generalizing m with
  | nil => simp [bytesToNat]
  | cons b t ih =>
    have hb0 : b < 256 := hb b (by simp)
    have hbt : ∀ x ∈ t, x < 256 := fun x hx => hb x (by simp [hx])
    rw [bytesToNat_cons]
    by_cases hm : m < 8
    · have hdiv : m / 8 = 0 := Nat.div_eq_of_lt hm
      have hmod : m % 8 = m := Nat.mod_eq_of_lt hm
      rw [hdiv, hmod]
      simp only [List.getD_cons_zero]
      rw [Nat.testBit_to_div_mod, Nat.testBit_to_div_mod]
      have h256 : 256 * bytesToNat t = 2 ^ m * (2 ^ (8 - m) * bytesToNat t) := by
        rw [← Nat.mul_assoc, ← Nat.pow_add]
        have hm8 : m + (8 - m) = 8 := by omega
        rw [hm8]
      rw [h256, Nat.add_mul_div_left _ _ (Nat.two_pow_pos m)]
      have heven : 2 ^ (8 - m) * bytesToNat t = 2 * (2 ^ (7 - m) * bytesToNat t) := by
        rw [← Nat.mul_assoc]
        congr 1
        rw [← Nat.pow_succ']
        congr 1
        omega
      rw [heven, Nat.add_mul_mod_self_left]
    · have h8 : 8 ≤ m := Nat.le_of_not_lt hm
      have hsplit : (b + 256 * bytesToNat t).testBit m =
          (bytesToNat t).testBit (m - 8) := by
        rw [Nat.testBit_to_div_mod, Nat.testBit_to_div_mod]
        have hpow : (2 : Nat) ^ m = 2 ^ 8 * 2 ^ (m - 8) := by
          rw [← Nat.pow_add]
          congr 1
          omega
        rw [hpow, ← Nat.div_div_eq_div_mul]
        have h2256 : (2 : Nat) ^ 8 = 256 := by norm_num
        rw [h2256, Nat.add_mul_div_left _ _ (by norm_num : (0 : Nat) < 256),
          Nat.div_eq_of_lt hb0, Nat.zero_add]
      rw [hsplit, ih hbt]
      have hd : (b :: t).getD (m / 8) 0 = t.getD (m / 8 - 1) 0 := by
        have : m / 8 = (m / 8 - 1) + 1 := by omega
        rw [this]
        simp
      have e1 : (m - 8) / 8 = m / 8 - 1 := by omega
      have e2 : (m - 8) % 8 = m % 8 := by omega
      rw [e1, e2, hd]

/-- The 5-bit group the source assembles from at most two adjacent bytes
equals bits `5n..5n+4` of the little-endian value of the byte string. -/
theorem nix32Group_eq (s : List Nat) (hb : ∀ x ∈ s, x < 256) (n : Nat) :
    nix32Group s n = (bytesToNat s >>> (5 * n)) % 32 := by
  have hgetD : ∀ k, s.getD k 0 < 256 := by
    intro k
    rw [List.getD_eq_getElem?_getD]
    rcases Nat.lt_or_ge k s.length with hk | hk
    · rw [List.getElem?_eq_getElem hk]
      exact hb _ (List.getElem_mem hk)
    · rw [List.getElem?_eq_none hk]
      norm_num
  apply Nat.eq_of_testBit_eq
  intro t
  rw [show (32 : Nat) = 2 ^ 5 from by norm_num, Nat.testBit_mod_two_pow,
    Nat.testBit_shiftRight]
  simp only [nix32Group]
  rw [show (31 : Nat) = 2 ^ 5 - 1 from by norm_num, Nat.testBit_and,
    Nat.testBit_two_pow_sub_one]
  by_cases ht : t < 5
  case neg =>
    simp [ht]
  case pos =>
    simp only [ht, decide_True, Bool.and_true, Bool.true_and]
    rw [bytesToNat_testBit s hb]
    rw [Nat.testBit_lor, Nat.testBit_shiftRight]
    have hj : n * 5 % 8 < 8 := Nat.mod_lt _ (by norm_num)
    by_cases hcase : n * 5 % 8 + t < 8
    · have hdiv : (5 * n + t) / 8 = n * 5 / 8 := by omega
      have hmod : (5 * n + t) % 8 = n * 5 % 8 + t := by omega
      rw [hdiv, hmod]
      have hsecond : (if s.length - 1 ≤ n * 5 / 8 then 0
          else s.getD (n * 5 / 8 + 1) 0 <<< (8 - n * 5 % 8)).testBit t = false := by
        split
        · simp
        · rw [Nat.testBit_shiftLeft]
          have hnle : ¬ (8 - n * 5 % 8 ≤ t) := by omega
          simp [hnle]
      rw [hsecond, Bool.or_false]
    · have hdiv : (5 * n + t) / 8 = n * 5 / 8 + 1 := by omega
      have hmod : (5 * n + t) % 8 = n * 5 % 8 + t - 8 := by omega
      rw [hdiv, hmod]
      have hfirst : (s.getD (n * 5 / 8) 0).testBit (n * 5 % 8 + t) = false := by
        apply Nat.testBit_lt_two_pow
        calc s.getD (n * 5 / 8) 0 < 256 := hgetD _
          _ = 2 ^ 8 := by norm_num
          _ ≤ 2 ^ (n * 5 % 8 + t) := Nat.pow_le_pow_right (by norm_num) (by omega)
      rw [hfirst, Bool.false_or]
      split
      next hle =>
        have hout : s.length ≤ n * 5 / 8 + 1 := by omega
        have hzero : s.getD (n * 5 / 8 + 1) 0 = 0 := by
          rw [List.getD_eq_getElem?_getD, List.getElem?_eq_none hout]
          rfl
        rw [hzero]
        simp
      next hgt =>
        rw [Nat.testBit_shiftLeft]
        have hdec : 8 - n * 5 % 8 ≤ t := by omega
        simp only [hdec, decide_True, Bool.true_and]
        congr 1
        omega

/-- The little-endian value of a byte string is bounded by `2^(8·len)`. -/
theorem bytesToNat_lt (s : List Nat) (hb : ∀ x ∈ s, x < 256) :
    bytesToNat s < 2 ^ (8 * s.length) := by
  induction s with
  | nil => simp [bytesToNat]
  | cons b t ih =>
    have hb0 : b < 256 := hb b (by simp)
    have ihb := ih (fun x hx => hb x (by simp [hx]))
    rw [bytesToNat_cons]
    have h2 : b + 256 * bytesToNat t < 256 * 2 ^ (8 * t.length) := by
      calc b + 256 * bytesToNat t < 256 + 256 * bytesToNat t := by omega
        _ = 256 * (bytesToNat t + 1) := by ring
        _ ≤ 256 * 2 ^ (8 * t.length) :=
          Nat.mul_le_mul_left _ (by omega)
    have hexp : 2 ^ (8 * (t.length + 1)) = 256 * 2 ^ (8 * t.length) := by
      rw [show 8 * (t.length + 1) = 8 + 8 * t.length from by ring, Nat.pow_add]
    rw [List.length_cons, hexp]
    exact h2

/-- Byte strings of equal length and byte-bounded entries are determined
by their little-endian value. -/
theorem bytesToNat_inj (s₁ : List Nat) (h1 : ∀ x ∈ s₁, x < 256) :
    ∀ s₂, (∀ x ∈ s₂, x < 256) → s₁.length = s₂.length →
      bytesToNat s₁ = bytesToNat s₂ → s₁ = s₂ := by
  induction s₁ with
  | nil =>
    intro s₂ _ hlen _
    cases s₂ with
    | nil => rfl
    | cons b t => simp at hlen
  | cons a t₁ ih =>
    intro s₂ h2 hlen h
    cases s₂ with
    | nil => simp at hlen
    | cons b t₂ =>
      rw [bytesToNat_cons, bytesToNat_cons] at h
      have ha : a < 256 := h1 a (by simp)
      have hbb : b < 256 := h2 b (by simp)
      have hab : a = b := by omega
      have hT : bytesToNat t₁ = bytesToNat t₂ := by omega
      have hlen' : t₁.length = t₂.length := by
        simpa using hlen
      rw [hab, ih (fun x hx => h1 x (by simp [hx])) t₂
        (fun x hx => h2 x (by simp [hx])) hlen' hT]

/-- A number below `2^(5k)` is determined by its `k` base-32 digits. -/
theorem base32_digits_inj (k : Nat) :
    ∀ a b : Nat, a < 2 ^ (5 * k) → b < 2 ^ (5 * k) →
    (∀ n, n < k → (a >>> (5 * n)) % 32 = (b >>> (5 * n)) % 32) → a = b := by
  induction k with
  | zero =>
    intro a b ha hb _
    simp only [Nat.mul_zero, Nat.pow_zero, Nat.lt_one_iff] at ha hb
    omega
  | succ k ih =>
    intro a b ha hb h
    have h0 := h 0 (Nat.succ_pos k)
    rw [Nat.mul_zero, Nat.shiftRight_zero, Nat.shiftRight_zero] at h0
    have hshift : ∀ x : Nat, x >>> 5 = x / 32 := fun x => by
      rw [Nat.shiftRight_eq_div_pow]
    have hstep : a / 32 = b / 32 := by
      apply ih
      · have : a < 2 ^ (5 * k) * 32 := by
          calc a < 2 ^ (5 * (k + 1)) := ha
            _ = 2 ^ (5 * k) * 32 := by
              rw [show 5 * (k + 1) = 5 * k + 5 from by ring, Nat.pow_add]
        omega
      · have : b < 2 ^ (5 * k) * 32 := by
          calc b < 2 ^ (5 * (k + 1)) := hb
            _ = 2 ^ (5 * k) * 32 := by
              rw [show 5 * (k + 1) = 5 * k + 5 from by ring, Nat.pow_add]
        omega
      · intro n hn
        have := h (n + 1) (by omega)
        rw [show 5 * (n + 1) = 5 + 5 * n from by ring] at this
        rw [Nat.shiftRight_add, Nat.shiftRight_add, hshift a, hshift b] at this
        exact this
    omega

/-- Distinct 5-bit values index distinct alphabet characters. -/
theorem nix32Alphabet_getD_inj :
    ∀ a, a < 32 → ∀ b, b < 32 →
      nix32Alphabet.getD a ' ' = nix32Alphabet.getD b ' ' → a = b := by
  decide

/-- Every group value is below 32. -/
theorem nix32Group_lt (s : List Nat) (n : Nat) : nix32Group s n < 32 := by
  simp only [nix32Group]
  exact Nat.lt_succ_of_le Nat.and_le_right

/-- Indexing the alphabet below 32 lands in the alphabet. -/
theorem nix32Alphabet_getD_mem (a : Nat) (ha : a < 32) :
    nix32Alphabet.getD a ' ' ∈ nix32Alphabet := by
  have hlen : nix32Alphabet.length = 32 := by decide
  rw [List.getD_eq_getElem?_getD,
    List.getElem?_eq_getElem (by rw [hlen]; exact ha)]
  exact List.getElem_mem _

/-- Claim C9 as stated is false at the empty slice: `slice.len() * 8 - 1`
underflows and the function panics instead of returning the empty
string of length `⌈8·0/5⌉ = 0`. -/
theorem claim_C9_counterexample : ¬ ∃ str : String, to_nix32 [] = some str := by
  rintro ⟨str, h⟩
  simp [to_nix32] at h

/-- Claim C9 amended: for every *non-empty* byte slice, `to_nix32`
returns a string of length `⌈8·len/5⌉` over the alphabet
`0123456789abcdfghijklmnpqrsvwxyz`; it is deterministic (it is a
function) and injective for fixed input lengths, and every 32-byte input
yields exactly 52 characters. -/
theorem claim_C9 (s : List Nat) (hne : s ≠ []) (hb : ∀ x ∈ s, x < 256) :
    ∃ str, to_nix32 s = some str ∧
      str.length = (8 * s.length + 4) / 5 ∧
      (∀ ch ∈ str.data, ch ∈ nix32Alphabet) ∧
      (s.length = 32 → str.length = 52) ∧
      (∀ s₂, s₂.length = s.length → (∀ x ∈ s₂, x < 256) → s₂ ≠ s →
        to_nix32 s₂ ≠ some str) := by
  have hlen0 : s.length ≠ 0 := by simp [List.length_eq_zero, hne]
  have hkk : (s.length * 8 - 1) / 5 + 1 = (8 * s.length + 4) / 5 := by omega
  refine ⟨_, to_nix32_eq_some s hne, ?_, ?_, ?_, ?_⟩
  · simp [hkk]
  · intro ch hch
    simp only [String.data] at hch
    rw [List.mem_map] at hch
    obtain ⟨n, _, hn⟩ := hch
    rw [← hn]
    exact nix32Alphabet_getD_mem _ (nix32Group_lt s n)
  · intro h32
    simp [h32, hkk]
  · intro s₂ hlen2 hb2 hneq habs
    have hne2 : s₂ ≠ [] := by
      intro h0
      rw [h0] at hlen2
      exact hlen0 hlen2.symm
    rw [to_nix32_eq_some s₂ hne2] at habs
    rw [Option.some.injEq] at habs
    have hdata := congrArg String.data habs
    simp only [String.data] at hdata
    rw [hlen2] at hdata
    rw [List.map_inj_left] at hdata
    have hgroups : ∀ n, n < (s.length * 8 - 1) / 5 + 1 →
        nix32Group s₂ n = nix32Group s n := by
      intro n hn
      have hmem : n ∈ (List.range ((s.length * 8 - 1) / 5 + 1)).reverse := by
        rw [List.mem_reverse, List.mem_range]
        exact hn
      exact nix32Alphabet_getD_inj _ (nix32Group_lt s₂ n) _ (nix32Group_lt s n)
        (hdata n hmem)
    have hkbound : 8 * s.length ≤ 5 * ((s.length * 8 - 1) / 5 + 1) := by omega
    have hNbound : ∀ (t : List Nat), t.length = s.length →
        (∀ x ∈ t, x < 256) →
        bytesToNat t < 2 ^ (5 * ((s.length * 8 - 1) / 5 + 1)) := by
      intro t htl htb
      calc bytesToNat t < 2 ^ (8 * t.length) := bytesToNat_lt t htb
        _ ≤ 2 ^ (5 * ((s.length * 8 - 1) / 5 + 1)) :=
          Nat.pow_le_pow_right (by norm_num) (by rw [htl]; exact hkbound)
    have hN : bytesToNat s₂ = bytesToNat s := by
      apply base32_digits_inj ((s.length * 8 - 1) / 5 + 1) _ _
        (hNbound s₂ hlen2 hb2) (hNbound s rfl hb)
      intro n hn
      rw [← nix32Group_eq s₂ hb2 n, ← nix32Group_eq s hb n]
      exact hgroups n hn
    exact hneq (bytesToNat_inj s₂ hb2 s hb (by rw [hlen2]) hN)

/-- Witness for the amended claim C9 at the one-byte slice `[1]`. -/
theorem claim_C9_witness :
    ∃ str, to_nix32 [1] = some str ∧
      str.length = (8 * ([1] : List Nat).length + 4) / 5 ∧
      (∀ ch ∈ str.data, ch ∈ nix32Alphabet) ∧
      (([1] : List Nat).length = 32 → str.length = 52) ∧
      (∀ s₂, s₂.length = ([1] : List Nat).length → (∀ x ∈ s₂, x < 256) →
        s₂ ≠ [1] → to_nix32 s₂ ≠ some str) :=
  claim_C9 [1] (by decide) (by decide)
